import Mathlib

/-
Verification of the core data model and operations of the image-grid editor
(pixel grid store, history manager, coordinate mapping, color conversion,
image-processor state machine), shallowly embedded from the TypeScript
sources.  JavaScript numbers are modelled as exact rationals (ℚ); integer
grid coordinates as ℤ; array indexing is modelled with optional lookup.
-/

namespace ImageGrid

/-- JavaScript Math.round: round half toward positive infinity,
    Math.round x = ⌊x + 1/2⌋. -/
def jsRound (x : ℚ) : ℤ := ⌊x + 1/2⌋

/-- RGBA color: r,g,b nominally integers in [0,255], alpha in [0,1];
    all four are JavaScript numbers, modelled as ℚ (types/index.ts). -/
structure RGBAColor where
  r : ℚ
  g : ℚ
  b : ℚ
  a : ℚ
deriving DecidableEq

/-- A grid position (types/index.ts).  Coordinates are JS numbers; the
    integer positions relevant here are modelled as ℤ. -/
structure GridPosition where
  x : ℤ
  y : ℤ
deriving DecidableEq

/-- A selection rectangle given by two corner positions plus an active
    flag (types/index.ts).  The source field named end is called endPos
    here because end is a Lean keyword. -/
structure GridSelection where
  start : GridPosition
  endPos : GridPosition
  active : Bool
deriving DecidableEq

/-- One cell of the grid (interface PixelState, types/index.ts):
    position, current color, modified flag, optional original color. -/
structure PixelState where
  x : ℤ
  y : ℤ
  rgba : RGBAColor
  modified : Bool
  originalRgba : Option RGBAColor
deriving DecidableEq

/-- Partial PixelState (the TypeScript Partial type): each field
    optionally present. -/
structure PixelPatch where
  x : Option ℤ := none
  y : Option ℤ := none
  rgba : Option RGBAColor := none
  modified : Option Bool := none
  originalRgba : Option (Option RGBAColor) := none
deriving DecidableEq

/-- The JS object spread update performed by updatePixelAt on the hit
    cell: spread the old pixel, then the patch, then set modified to
    true. -/
def applyPatch (pixel : PixelState) (u : PixelPatch) : PixelState :=
  { x := u.x.getD pixel.x
    y := u.y.getD pixel.y
    rgba := u.rgba.getD pixel.rgba
    modified := true
    originalRgba := u.originalRgba.getD pixel.originalRgba }

/-- The grid (interface GridData, types/index.ts): row-major list of
    rows of cells plus dimensions. -/
structure GridData where
  pixels : List (List PixelState)
  width : ℕ
  height : ℕ
deriving DecidableEq

/-- JavaScript Array.prototype.map with element index, starting the
    index count at i. -/
def mapIdxFrom (f : ℕ → α → β) (i : ℕ) : List α → List β
  | [] => []
  | a :: as => f i a :: mapIdxFrom f (i + 1) as

/-- JavaScript Array.prototype.map with element index. -/
def jsMapIdx (f : ℕ → α → β) (l : List α) : List β := mapIdxFrom f 0 l

/-- isValidGridPosition (gridUtils): both coordinates in [0, gridSize). -/
def isValidGridPosition (position : GridPosition) (gridSize : ℕ) : Bool :=
  decide (0 ≤ position.x) && decide (position.x < (gridSize : ℤ)) &&
  decide (0 ≤ position.y) && decide (position.y < (gridSize : ℤ))

/-- getPixelAt (gridUtils): null when the position fails the validity
    check (which uses gridData.width as the size for both axes, as in
    the source); otherwise the cell pixels[y][x], via optional lookup. -/
def getPixelAt (gridData : GridData) (x y : ℤ) : Option PixelState :=
  if isValidGridPosition ⟨x, y⟩ gridData.width then
    (gridData.pixels.get? y.toNat).bind (fun row => row.get? x.toNat)
  else none

/-- updatePixelAt (gridUtils): the input grid itself when the position
    is out of bounds; otherwise a new grid whose pixel arrays are
    rebuilt by map, replacing only the cell at (x, y) by the patched
    pixel with modified set to true. -/
def updatePixelAt (gridData : GridData) (x y : ℤ) (pixelState : PixelPatch) :
    GridData :=
  if ¬ isValidGridPosition ⟨x, y⟩ gridData.width then gridData
  else
    { gridData with
      pixels :=
        jsMapIdx (fun rowIndex row =>
          jsMapIdx (fun colIndex pixel =>
            if (rowIndex : ℤ) = y ∧ (colIndex : ℤ) = x then
              applyPatch pixel pixelState
            else pixel) row) gridData.pixels }

/-- The inclusive integer range lo..hi traversed by the for loops of
    the selection functions. -/
def intRange (lo hi : ℤ) : List ℤ :=
  (List.range (hi + 1 - lo).toNat).map (fun i : ℕ => lo + (i : ℤ))

/-- updatePixelsInSelection (gridUtils): no-op when the selection is
    inactive; otherwise updatePixelAt applied to every (x, y) of the
    min/max-normalized rectangle, y outer, x inner. -/
def updatePixelsInSelection (gridData : GridData) (selection : GridSelection)
    (updates : PixelPatch) : GridData :=
  if ¬ selection.active then gridData
  else
    let startX := min selection.start.x selection.endPos.x
    let endX := max selection.start.x selection.endPos.x
    let startY := min selection.start.y selection.endPos.y
    let endY := max selection.start.y selection.endPos.y
    (intRange startY endY).foldl (fun acc y =>
      (intRange startX endX).foldl (fun acc2 x =>
        updatePixelAt acc2 x y updates) acc) gridData

/-- The fully-transparent white sentinel used by createEmptyGrid. -/
def transparentWhite : RGBAColor := ⟨255, 255, 255, 0⟩

/-- createEmptyGrid (gridUtils): every cell transparent white, not
    modified, originalRgba the same sentinel. -/
def createEmptyGrid (width height : ℕ) : GridData :=
  { pixels :=
      (List.range height).map (fun y =>
        (List.range width).map (fun x =>
          { x := (x : ℤ), y := (y : ℤ), rgba := transparentWhite
            modified := false, originalRgba := some transparentWhite }))
    width := width
    height := height }

/-- The per-cell copy performed by cloneGridData: fresh rgba and
    originalRgba objects with the same field values. -/
def clonePixelState (p : PixelState) : PixelState :=
  { p with
    rgba := { r := p.rgba.r, g := p.rgba.g, b := p.rgba.b, a := p.rgba.a }
    originalRgba :=
      match p.originalRgba with
      | some o => some { r := o.r, g := o.g, b := o.b, a := o.a }
      | none => none }

/-- cloneGridData (gridUtils): deep copy of every row and cell. -/
def cloneGridData (gridData : GridData) : GridData :=
  { gridData with
    pixels := gridData.pixels.map (fun row => row.map clonePixelState) }

/-- getModifiedPixels (gridUtils): scan y in [0,height), x in [0,width)
    in row-major order and collect the cells with modified = true. -/
def getModifiedPixels (gridData : GridData) : List PixelState :=
  (List.range gridData.height).foldr (fun y acc =>
    ((List.range gridData.width).filterMap (fun x =>
      match (gridData.pixels.get? y).bind (fun row => row.get? x) with
      | some pixel => if pixel.modified then some pixel else none
      | none => none)) ++ acc) []

/-- The per-cell effect of resetGridModifications: when originalRgba is
    present, color is set back to it and modified cleared. -/
def resetPixelState (p : PixelState) : PixelState :=
  match p.originalRgba with
  | some o =>
      { p with
        rgba := { r := o.r, g := o.g, b := o.b, a := o.a }
        modified := false }
  | none => p

/-- resetGridModifications (gridUtils): clone, then reset every cell
    that carries an originalRgba. -/
def resetGridModifications (gridData : GridData) : GridData :=
  { cloneGridData gridData with
    pixels := (cloneGridData gridData).pixels.map
      (fun row => row.map resetPixelState) }

/-- Well-formedness of a grid per the data model: pixels has height
    rows, each row has width cells, and the grid is square (the model's
    grids always have width = height; the source bounds check uses
    width for both axes). -/
def wellFormed (g : GridData) : Prop :=
  g.pixels.length = g.height ∧
  (∀ row ∈ g.pixels, row.length = g.width) ∧
  g.width = g.height

instance (g : GridData) : Decidable (wellFormed g) := by
  unfold wellFormed; infer_instance

/-- A grid as produced by creation or ingestion (createEmptyGrid,
    extractGridFromCanvas): no cell is modified and every cell's
    originalRgba equals its current color. -/
def freshGrid (g : GridData) : Prop :=
  ∀ row ∈ g.pixels, ∀ p ∈ row, p.modified = false ∧
    p.originalRgba = some p.rgba

instance (g : GridData) : Decidable (freshGrid g) := by
  unfold freshGrid; infer_instance

/-- The grids reachable from a fresh grid g0 by single-cell color
    writes, region color writes, and resets — the grid lifecycle of the
    application (updatePixel, updateSelectedPixels, resetGrid in
    usePixelGrid.ts, each writing a color patch). -/
inductive Reachable : GridData → GridData → Prop where
  | fresh (g : GridData) (h : freshGrid g) : Reachable g g
  | write (g0 g : GridData) (x y : ℤ) (c : RGBAColor) :
      Reachable g0 g → Reachable g0 (updatePixelAt g x y { rgba := some c })
  | region (g0 g : GridData) (sel : GridSelection) (c : RGBAColor) :
      Reachable g0 g →
      Reachable g0 (updatePixelsInSelection g sel { rgba := some c })
  | reset (g0 g : GridData) :
      Reachable g0 g → Reachable g0 (resetGridModifications g)

/-! ## Coordinate mapping (gridMapping utils) -/

/-- gridToCanvasCoordinates: fractional position in the grid scaled to
    canvas pixels. -/
def gridToCanvasCoordinates (gridX gridY canvasWidth canvasHeight : ℚ)
    (gridSize : ℚ) : ℚ × ℚ :=
  (gridX / gridSize * canvasWidth, gridY / gridSize * canvasHeight)

/-- canvasToGridCoordinates: Math.floor of the canvas position scaled
    back to grid units. -/
def canvasToGridCoordinates (canvasX canvasY canvasWidth canvasHeight : ℚ)
    (gridSize : ℚ) : GridPosition :=
  ⟨⌊canvasX / canvasWidth * gridSize⌋, ⌊canvasY / canvasHeight * gridSize⌋⟩

/-! ## Color space conversion (colorConversion.ts) -/

/-- HSL color: h in [0,360], s and l in [0,100]; JS numbers. -/
structure HSLColor where
  h : ℚ
  s : ℚ
  l : ℚ
deriving DecidableEq

/-- HSV color: h in [0,360], s and v in [0,100]; JS numbers. -/
structure HSVColor where
  h : ℚ
  s : ℚ
  v : ℚ
deriving DecidableEq

/-- rgbaToHsl: normalize channels to [0,1], compute lightness from
    max/min, saturation and hue in the chromatic case, and round each
    output channel independently.  The switch on max takes the first
    matching case, as in JavaScript. -/
def rgbaToHsl (rgba : RGBAColor) : HSLColor :=
  let r := rgba.r / 255
  let g := rgba.g / 255
  let b := rgba.b / 255
  let mx := max r (max g b)
  let mn := min r (min g b)
  let diff := mx - mn
  let sum := mx + mn
  let l := sum / 2
  let hs : ℚ × ℚ :=
    if diff = 0 then (0, 0)
    else
      let s := if l > 1/2 then diff / (2 - sum) else diff / sum
      let h :=
        if mx = r then (g - b) / diff + (if g < b then 6 else 0)
        else if mx = g then (b - r) / diff + 2
        else (r - g) / diff + 4
      (h / 6, s)
  { h := (jsRound (hs.1 * 360) : ℚ)
    s := (jsRound (hs.2 * 100) : ℚ)
    l := (jsRound (l * 100) : ℚ) }

/-- The hue2rgb helper of hslToRgba; the two wrap-around conditionals
    are sequential, as in the source. -/
def hue2rgb (p q t : ℚ) : ℚ :=
  let t1 := if t < 0 then t + 1 else t
  let t2 := if t1 > 1 then t1 - 1 else t1
  if t2 < 1/6 then p + (q - p) * 6 * t2
  else if t2 < 1/2 then q
  else if t2 < 2/3 then p + (q - p) * (2/3 - t2) * 6
  else p

/-- hslToRgba: achromatic when s = 0, otherwise via hue2rgb; channels
    rounded, alpha passed through (the source's alpha parameter,
    defaulting to 1 at call sites that omit it). -/
def hslToRgba (hsl : HSLColor) (alpha : ℚ) : RGBAColor :=
  let h := hsl.h / 360
  let s := hsl.s / 100
  let l := hsl.l / 100
  let rgb : ℚ × ℚ × ℚ :=
    if s = 0 then (l, l, l)
    else
      let q := if l < 1/2 then l * (1 + s) else l + s - l * s
      let p := 2 * l - q
      (hue2rgb p q (h + 1/3), hue2rgb p q h, hue2rgb p q (h - 1/3))
  { r := (jsRound (rgb.1 * 255) : ℚ)
    g := (jsRound (rgb.2.1 * 255) : ℚ)
    b := (jsRound (rgb.2.2 * 255) : ℚ)
    a := alpha }

/-- rgbaToHsv: value is the channel maximum, saturation diff/max
    (0 when max = 0), hue as in rgbaToHsl; outputs rounded. -/
def rgbaToHsv (rgba : RGBAColor) : HSVColor :=
  let r := rgba.r / 255
  let g := rgba.g / 255
  let b := rgba.b / 255
  let mx := max r (max g b)
  let mn := min r (min g b)
  let diff := mx - mn
  let v := mx
  let s := if mx = 0 then 0 else diff / mx
  let h :=
    if diff = 0 then 0
    else
      (if mx = r then (g - b) / diff + (if g < b then 6 else 0)
       else if mx = g then (b - r) / diff + 2
       else (r - g) / diff + 4) / 6
  { h := (jsRound (h * 360) : ℚ)
    s := (jsRound (s * 100) : ℚ)
    v := (jsRound (v * 100) : ℚ) }

/-- JavaScript truncation toward zero, used by the % operator. -/
def jsTrunc (x : ℚ) : ℤ := if 0 ≤ x then ⌊x⌋ else ⌈x⌉

/-- JavaScript % on numbers: remainder with the sign of the dividend. -/
def jsFmod (x y : ℚ) : ℚ := x - y * (jsTrunc (x / y) : ℚ)

/-- hsvToRgba: chroma/intermediate/match construction with the hue
    sextant chosen by the source's if/else chain (the final else takes
    everything not matched before it); channels rounded, alpha passed
    through. -/
def hsvToRgba (hsv : HSVColor) (alpha : ℚ) : RGBAColor :=
  let h := hsv.h / 360
  let s := hsv.s / 100
  let v := hsv.v / 100
  let c := v * s
  let x := c * (1 - |jsFmod (h * 6) 2 - 1|)
  let m := v - c
  let rgb : ℚ × ℚ × ℚ :=
    if 0 ≤ h ∧ h < 1/6 then (c, x, 0)
    else if 1/6 ≤ h ∧ h < 2/6 then (x, c, 0)
    else if 2/6 ≤ h ∧ h < 3/6 then (0, c, x)
    else if 3/6 ≤ h ∧ h < 4/6 then (0, x, c)
    else if 4/6 ≤ h ∧ h < 5/6 then (x, 0, c)
    else (c, 0, x)
  { r := (jsRound ((rgb.1 + m) * 255) : ℚ)
    g := (jsRound ((rgb.2.1 + m) * 255) : ℚ)
    b := (jsRound ((rgb.2.2 + m) * 255) : ℚ)
    a := alpha }

/-! ## History manager (usePixelGrid.ts) -/

/-- The history bound MAX_HISTORY_SIZE. -/
def MAX_HISTORY_SIZE : ℕ := 50

/-- The grid/history part of the usePixelGrid state: current grid,
    snapshot list, cursor (-1 when empty). -/
structure PixelGridState where
  gridData : Option GridData
  history : List GridData
  historyIndex : ℤ
deriving DecidableEq

/-- Stand-in for the out-of-range JavaScript array read in undo/redo;
    unreachable under the history invariants proved below. -/
def emptyGridData : GridData := ⟨[], 0, 0⟩

/-- The initial usePixelGrid state. -/
def initialPixelGridState : PixelGridState :=
  { gridData := none, history := [], historyIndex := -1 }

/-- addToHistory: truncate the history to [0..historyIndex], append a
    clone of the grid, drop the oldest entry when the bound is
    exceeded, and point the cursor at the last entry. -/
def addToHistory (s : PixelGridState) (gridData : GridData) : PixelGridState :=
  let pushed := (s.history.take (s.historyIndex + 1).toNat).concat
    (cloneGridData gridData)
  let newHistory := if MAX_HISTORY_SIZE < pushed.length then pushed.tail
    else pushed
  { s with history := newHistory
           historyIndex := (newHistory.length : ℤ) - 1 }

/-- setGridData: replace the grid and reseed the history with a single
    cloned snapshot (or clear it for null). -/
def setGridData (s : PixelGridState) (gridData : Option GridData) :
    PixelGridState :=
  { s with gridData := gridData
           history := match gridData with
             | some gd => [cloneGridData gd]
             | none => []
           historyIndex := match gridData with
             | some _ => 0
             | none => -1 }

/-- The combined state transition of an accepted edit (updatePixel,
    updateSelectedPixels, resetGrid): the new grid becomes current and
    addToHistory records it. -/
def applyEdit (s : PixelGridState) (g : GridData) : PixelGridState :=
  { addToHistory s g with gridData := some g }

/-- undo: no-op at cursor 0 (or empty); otherwise step the cursor back
    and load a clone of that snapshot. -/
def undo (s : PixelGridState) : PixelGridState :=
  if s.historyIndex ≤ 0 then s
  else
    { s with
      gridData := some (cloneGridData
        (s.history.getD (s.historyIndex - 1).toNat emptyGridData))
      historyIndex := s.historyIndex - 1 }

/-- redo: no-op at the last entry; otherwise step the cursor forward
    and load a clone of that snapshot. -/
def redo (s : PixelGridState) : PixelGridState :=
  if (s.history.length : ℤ) - 1 ≤ s.historyIndex then s
  else
    { s with
      gridData := some (cloneGridData
        (s.history.getD (s.historyIndex + 1).toNat emptyGridData))
      historyIndex := s.historyIndex + 1 }

/-- The structural invariant of the seeded history state: non-empty,
    bounded by MAX_HISTORY_SIZE, cursor in range. -/
def histInv (s : PixelGridState) : Prop :=
  1 ≤ s.history.length ∧ s.history.length ≤ MAX_HISTORY_SIZE ∧
  0 ≤ s.historyIndex ∧ s.historyIndex < (s.history.length : ℤ)

/-- One history operation: record a new grid state, undo, or redo. -/
inductive HistOp where
  | record (g : GridData)
  | undoOp
  | redoOp
deriving DecidableEq

/-- Apply one history operation. -/
def applyHistOp (s : PixelGridState) : HistOp → PixelGridState
  | HistOp.record g => applyEdit s g
  | HistOp.undoOp => undo s
  | HistOp.redoOp => redo s

/-- Apply a sequence of history operations. -/
def applyHistOps (s : PixelGridState) (ops : List HistOp) : PixelGridState :=
  ops.foldl applyHistOp s

/-! ## Image processor state machine (useImageProcessor, useAppContext.tsx) -/

/-- The error kinds of UploadError (types/index.ts). -/
inductive UploadErrorType where
  | format
  | size
  | processing
  | network
deriving DecidableEq

/-- UploadError (types/index.ts); the file reference is abstracted as
    an optional name. -/
structure UploadError where
  type : UploadErrorType
  message : String
  file : Option String
deriving DecidableEq

/-- ImageData (types/index.ts): decoded source image metadata. -/
structure ImageData where
  width : ℕ
  height : ℕ
  src : String
deriving DecidableEq

/-- ProcessingResult (types/index.ts): success flag plus optional
    payloads and error. -/
structure ProcessingResult where
  success : Bool
  imageData : Option ImageData
  gridData : Option GridData
  error : Option UploadError
deriving DecidableEq

/-- The useImageProcessor state. -/
structure ProcessorState where
  processing : Bool
  imageData : Option ImageData
  gridData : Option GridData
  error : Option UploadError
deriving DecidableEq

/-- What the awaited processImageToGrid call delivers to processImage:
    either a ProcessingResult or a thrown error message (caught by the
    surrounding try/catch). -/
def ProcessOutcome := Except String ProcessingResult

/-- processImage (useImageProcessor): set processing and clear the
    error, then dispatch on the outcome: on a successful result with
    both payloads present install them; otherwise record the error
    (with a fallback message) and clear processing, leaving imageData
    and gridData untouched. -/
def processImage (s : ProcessorState) (fileName : String)
    (outcome : ProcessOutcome) : ProcessorState :=
  let started : ProcessorState := { s with processing := true, error := none }
  match outcome with
  | Except.ok result =>
      match result.success, result.imageData, result.gridData with
      | true, some img, some gd =>
          { started with processing := false, imageData := some img
                         gridData := some gd, error := none }
      | _, _, _ =>
          { started with processing := false
                         error := some (result.error.getD
                           ⟨UploadErrorType.processing,
                            "Unknown processing error", some fileName⟩) }
  | Except.error msg =>
      { started with processing := false
                     error := some ⟨UploadErrorType.processing, msg,
                       some fileName⟩ }

/-! ## Helper lemmas about the JS array-map embedding -/

theorem length_mapIdxFrom (f : ℕ → α → β) (i : ℕ) (l : List α) :
    (mapIdxFrom f i l).length = l.length := by
  induction l generalizing i with
  | nil => rfl
  | cons a as ih => simp [mapIdxFrom, ih]

theorem get?_mapIdxFrom (f : ℕ → α → β) (i n : ℕ) (l : List α) :
    (mapIdxFrom f i l).get? n = (l.get? n).map (f (i + n)) := by
  induction l generalizing i n with
  | nil => simp [mapIdxFrom]
  | cons a as ih =>
      cases n with
      | zero => simp [mapIdxFrom]
      | succ m =>
          simp only [mapIdxFrom, List.get?_cons_succ, ih]
          have : i + 1 + m = i + (m + 1) := by omega
          rw [this]

theorem mem_mapIdxFrom (f : ℕ → α → β) (i : ℕ) (l : List α) (b : β)
    (hb : b ∈ mapIdxFrom f i l) : ∃ j a, a ∈ l ∧ b = f j a := by
  induction l generalizing i with
  | nil => simp [mapIdxFrom] at hb
  | cons x xs ih =>
      simp only [mapIdxFrom, List.mem_cons] at hb
      rcases hb with rfl | hb
      · exact ⟨i, x, List.mem_cons_self _ _, rfl⟩
      · obtain ⟨j, a, ha, rfl⟩ := ih (i + 1) hb
        exact ⟨j, a, List.mem_cons_of_mem _ ha, rfl⟩

theorem length_jsMapIdx (f : ℕ → α → β) (l : List α) :
    (jsMapIdx f l).length = l.length := length_mapIdxFrom f 0 l

theorem get?_jsMapIdx (f : ℕ → α → β) (n : ℕ) (l : List α) :
    (jsMapIdx f l).get? n = (l.get? n).map (f n) := by
  simpa using get?_mapIdxFrom f 0 n l

/-! ## Clone is the identity on grid values -/

theorem clonePixelState_eq (p : PixelState) : clonePixelState p = p := by
  cases p with
  | mk x y rgba modified originalRgba =>
      cases rgba
      cases originalRgba with
      | none => rfl
      | some o => cases o; rfl

theorem cloneGridData_eq (g : GridData) : cloneGridData g = g := by
  cases g with
  | mk pixels width height =>
      simp [cloneGridData, clonePixelState_eq, List.map_id'']

/-! ## updatePixelAt characterization -/

theorem updatePixelAt_width (g : GridData) (x y : ℤ) (u : PixelPatch) :
    (updatePixelAt g x y u).width = g.width := by
  unfold updatePixelAt; split <;> rfl

theorem updatePixelAt_height (g : GridData) (x y : ℤ) (u : PixelPatch) :
    (updatePixelAt g x y u).height = g.height := by
  unfold updatePixelAt; split <;> rfl

theorem updatePixelAt_invalid (g : GridData) (x y : ℤ) (u : PixelPatch)
    (h : ¬ isValidGridPosition ⟨x, y⟩ g.width = true) :
    updatePixelAt g x y u = g := by
  unfold updatePixelAt
  rw [if_pos]
  exact h

theorem wellFormed_updatePixelAt (g : GridData) (x y : ℤ) (u : PixelPatch)
    (h : wellFormed g) : wellFormed (updatePixelAt g x y u) := by
  obtain ⟨hrows, hcols, hsq⟩ := h
  unfold updatePixelAt
  split
  · exact ⟨hrows, hcols, hsq⟩
  · refine ⟨?_, ?_, hsq⟩
    · simpa [length_jsMapIdx] using hrows
    · intro row hrow
      simp only [jsMapIdx] at hrow
      obtain ⟨j, row0, hrow0, rfl⟩ := mem_mapIdxFrom _ _ _ _ hrow
      simpa [length_mapIdxFrom] using hcols row0 hrow0

theorem getPixelAt_updatePixelAt (g : GridData) (u : PixelPatch)
    (x y x' y' : ℤ) :
    getPixelAt (updatePixelAt g x y u) x' y' =
      if x' = x ∧ y' = y ∧ isValidGridPosition ⟨x, y⟩ g.width = true then
        (getPixelAt g x' y').map (fun p => applyPatch p u)
      else getPixelAt g x' y' := by
  by_cases hv : isValidGridPosition ⟨x, y⟩ g.width = true
  · have hpix : (updatePixelAt g x y u).pixels = jsMapIdx
        (fun rowIndex row => jsMapIdx (fun colIndex pixel =>
          if (rowIndex : ℤ) = y ∧ (colIndex : ℤ) = x then applyPatch pixel u
          else pixel) row) g.pixels := by
      unfold updatePixelAt
      rw [if_neg (fun hc => hc hv)]
    by_cases hv' : isValidGridPosition ⟨x', y'⟩ g.width = true
    · have hb : ((0:ℤ) ≤ x' ∧ x' < (g.width : ℤ)) ∧ (0:ℤ) ≤ y' ∧
          y' < (g.width : ℤ) := by
        simpa [isValidGridPosition, Bool.and_eq_true, and_assoc] using hv'
      have hx0 : (0:ℤ) ≤ x' := hb.1.1
      have hy0 : (0:ℤ) ≤ y' := hb.2.1
      simp only [getPixelAt, updatePixelAt_width, hpix, hv', if_true,
        get?_jsMapIdx]
      cases hrow : g.pixels.get? y'.toNat with
      | none => simp
      | some row =>
          simp only [Option.map_some', Option.some_bind, get?_jsMapIdx,
            Int.toNat_of_nonneg hx0, Int.toNat_of_nonneg hy0]
          by_cases hcond : x' = x ∧ y' = y
          · rw [if_pos ⟨hcond.1, hcond.2, hv⟩]
            simp [hcond.1, hcond.2]
          · have hc2 : ¬(y' = y ∧ x' = x) := fun h => hcond ⟨h.2, h.1⟩
            rw [if_neg (fun h => hcond ⟨h.1, h.2.1⟩)]
            simp [hc2]
    · have hne : ¬(x' = x ∧ y' = y ∧
          isValidGridPosition ⟨x, y⟩ g.width = true) := by
        rintro ⟨rfl, rfl, hvv⟩
        exact hv' hvv
      simp [getPixelAt, updatePixelAt_width, hv', hne]
  · rw [updatePixelAt_invalid g x y u hv,
      if_neg (fun h => hv h.2.2)]

/-! ## Region update characterization -/

theorem getD_self_getD (o : Option α) (a : α) : o.getD (o.getD a) = o.getD a := by
  cases o <;> rfl

theorem applyPatch_idem (p : PixelState) (u : PixelPatch) :
    applyPatch (applyPatch p u) u = applyPatch p u := by
  simp [applyPatch, getD_self_getD]

theorem mem_intRange {lo hi a : ℤ} : a ∈ intRange lo hi ↔ lo ≤ a ∧ a ≤ hi := by
  constructor
  · intro h
    obtain ⟨i, hi1, rfl⟩ := List.mem_map.mp h
    have := List.mem_range.mp hi1
    omega
  · rintro ⟨h1, h2⟩
    exact List.mem_map.mpr ⟨(a - lo).toNat,
      List.mem_range.mpr (by omega), by omega⟩

theorem foldl_updateRow_width (xs : List ℤ) (y : ℤ) (u : PixelPatch)
    (g : GridData) :
    (xs.foldl (fun acc x => updatePixelAt acc x y u) g).width = g.width := by
  induction xs generalizing g with
  | nil => rfl
  | cons x xs ih => simp [List.foldl_cons, ih, updatePixelAt_width]

theorem foldl_updateRow_height (xs : List ℤ) (y : ℤ) (u : PixelPatch)
    (g : GridData) :
    (xs.foldl (fun acc x => updatePixelAt acc x y u) g).height = g.height := by
  induction xs generalizing g with
  | nil => rfl
  | cons x xs ih => simp [List.foldl_cons, ih, updatePixelAt_height]

theorem getPixelAt_foldl_updateRow (xs : List ℤ) (y : ℤ) (u : PixelPatch)
    (g : GridData) (x' y' : ℤ) :
    getPixelAt (xs.foldl (fun acc x => updatePixelAt acc x y u) g) x' y' =
      if x' ∈ xs ∧ y' = y ∧ isValidGridPosition ⟨x', y'⟩ g.width = true then
        (getPixelAt g x' y').map (fun p => applyPatch p u)
      else getPixelAt g x' y' := by
  induction xs generalizing g with
  | nil => simp
  | cons x xs ih =>
      rw [List.foldl_cons, ih (updatePixelAt g x y u),
        getPixelAt_updatePixelAt, updatePixelAt_width]
      by_cases hy : y' = y
      · subst hy
        by_cases hx : x' = x
        · subst hx
          by_cases hxs : x' ∈ xs <;>
            by_cases hvv : isValidGridPosition ⟨x', y'⟩ g.width = true <;>
              simp [hxs, hvv, Option.map_map, Function.comp_def,
                applyPatch_idem]
        · simp [hx, List.mem_cons]
      · simp [hy]

theorem foldl_updateRows_width (ys xs : List ℤ) (u : PixelPatch)
    (g : GridData) :
    (ys.foldl (fun acc y => xs.foldl (fun acc2 x =>
      updatePixelAt acc2 x y u) acc) g).width = g.width := by
  induction ys generalizing g with
  | nil => rfl
  | cons y ys ih => simp [List.foldl_cons, ih, foldl_updateRow_width]

theorem foldl_updateRows_height (ys xs : List ℤ) (u : PixelPatch)
    (g : GridData) :
    (ys.foldl (fun acc y => xs.foldl (fun acc2 x =>
      updatePixelAt acc2 x y u) acc) g).height = g.height := by
  induction ys generalizing g with
  | nil => rfl
  | cons y ys ih => simp [List.foldl_cons, ih, foldl_updateRow_height]

theorem getPixelAt_foldl_updateRows (ys xs : List ℤ) (u : PixelPatch)
    (g : GridData) (x' y' : ℤ) :
    getPixelAt (ys.foldl (fun acc y => xs.foldl (fun acc2 x =>
      updatePixelAt acc2 x y u) acc) g) x' y' =
      if x' ∈ xs ∧ y' ∈ ys ∧ isValidGridPosition ⟨x', y'⟩ g.width = true then
        (getPixelAt g x' y').map (fun p => applyPatch p u)
      else getPixelAt g x' y' := by
  induction ys generalizing g with
  | nil => simp
  | cons y ys ih =>
      rw [List.foldl_cons, ih _, foldl_updateRow_width,
        getPixelAt_foldl_updateRow]
      by_cases hy : y' = y
      · subst hy
        by_cases hys : y' ∈ ys <;>
          by_cases hx : x' ∈ xs <;>
            by_cases hvv : isValidGridPosition ⟨x', y'⟩ g.width = true <;>
              simp [hys, hx, hvv, Option.map_map, Function.comp_def,
                applyPatch_idem]
      · simp [hy, List.mem_cons]

theorem updatePixelsInSelection_width (g : GridData) (sel : GridSelection)
    (u : PixelPatch) : (updatePixelsInSelection g sel u).width = g.width := by
  unfold updatePixelsInSelection
  split
  · rfl
  · exact foldl_updateRows_width _ _ _ _

theorem updatePixelsInSelection_height (g : GridData) (sel : GridSelection)
    (u : PixelPatch) : (updatePixelsInSelection g sel u).height = g.height := by
  unfold updatePixelsInSelection
  split
  · rfl
  · exact foldl_updateRows_height _ _ _ _

theorem getPixelAt_updatePixelsInSelection (g : GridData)
    (sel : GridSelection) (u : PixelPatch) (x' y' : ℤ)
    (hact : sel.active = true) :
    getPixelAt (updatePixelsInSelection g sel u) x' y' =
      if (min sel.start.x sel.endPos.x ≤ x' ∧
          x' ≤ max sel.start.x sel.endPos.x ∧
          min sel.start.y sel.endPos.y ≤ y' ∧
          y' ≤ max sel.start.y sel.endPos.y) ∧
          isValidGridPosition ⟨x', y'⟩ g.width = true then
        (getPixelAt g x' y').map (fun p => applyPatch p u)
      else getPixelAt g x' y' := by
  unfold updatePixelsInSelection
  rw [if_neg (fun hc => hc hact), getPixelAt_foldl_updateRows]
  by_cases hc : (min sel.start.x sel.endPos.x ≤ x' ∧
      x' ≤ max sel.start.x sel.endPos.x ∧
      min sel.start.y sel.endPos.y ≤ y' ∧
      y' ≤ max sel.start.y sel.endPos.y) ∧
      isValidGridPosition ⟨x', y'⟩ g.width = true
  · rw [if_pos hc, if_pos ⟨mem_intRange.mpr ⟨hc.1.1, hc.1.2.1⟩,
      mem_intRange.mpr ⟨hc.1.2.2.1, hc.1.2.2.2⟩, hc.2⟩]
  · rw [if_neg hc, if_neg]
    rintro ⟨hx, hy, hv⟩
    exact hc ⟨⟨(mem_intRange.mp hx).1, (mem_intRange.mp hx).2,
      (mem_intRange.mp hy).1, (mem_intRange.mp hy).2⟩, hv⟩

/-! ## resetGridModifications and getModifiedPixels lemmas -/

theorem resetGridModifications_pixels (g : GridData) :
    (resetGridModifications g).pixels =
      g.pixels.map (fun row => row.map resetPixelState) := by
  simp [resetGridModifications, cloneGridData_eq]

theorem resetGridModifications_width (g : GridData) :
    (resetGridModifications g).width = g.width := rfl

theorem resetGridModifications_height (g : GridData) :
    (resetGridModifications g).height = g.height := rfl

theorem getPixelAt_resetGridModifications (g : GridData) (x y : ℤ) :
    getPixelAt (resetGridModifications g) x y =
      (getPixelAt g x y).map resetPixelState := by
  unfold getPixelAt
  rw [resetGridModifications_width, resetGridModifications_pixels]
  split
  · rw [List.get?_map]
    cases g.pixels.get? y.toNat with
    | none => rfl
    | some row => simp [List.get?_map]
  · rfl

theorem getModifiedPixels_eq_nil (g : GridData)
    (h : ∀ row ∈ g.pixels, ∀ p ∈ row, p.modified = false) :
    getModifiedPixels g = [] := by
  unfold getModifiedPixels
  generalize List.range g.height = l
  induction l with
  | nil => rfl
  | cons y ys ih =>
      rw [List.foldr_cons, ih, List.append_nil]
      rw [List.filterMap_eq_nil]
      intro x hx
      cases hp : (g.pixels.get? y).bind (fun row => row.get? x) with
      | none => rfl
      | some p =>
          obtain ⟨row, hrow, hcell⟩ := Option.bind_eq_some.mp hp
          have hrmem := List.get?_mem hrow
          have hpmem := List.get?_mem hcell
          simp [h row hrmem p hpmem]

/-! ## Bounds and membership helpers -/

theorem isValid_iff (x y : ℤ) (n : ℕ) :
    isValidGridPosition ⟨x, y⟩ n = true ↔
      0 ≤ x ∧ x < (n : ℤ) ∧ 0 ≤ y ∧ y < (n : ℤ) := by
  simp [isValidGridPosition, and_assoc]

theorem getPixelAt_isSome (g : GridData) (hwf : wellFormed g) (x y : ℤ)
    (hv : isValidGridPosition ⟨x, y⟩ g.width = true) :
    ∃ p, getPixelAt g x y = some p := by
  obtain ⟨hrows, hcols, hsq⟩ := hwf
  obtain ⟨hx0, hx1, hy0, hy1⟩ := (isValid_iff _ _ _).mp hv
  unfold getPixelAt
  rw [if_pos hv]
  have hylen : y.toNat < g.pixels.length := by rw [hrows]; omega
  have hrow := List.get?_eq_get hylen
  have hxlen : x.toNat < (g.pixels.get ⟨y.toNat, hylen⟩).length := by
    rw [hcols _ (List.get?_mem hrow)]; omega
  refine ⟨(g.pixels.get ⟨y.toNat, hylen⟩).get ⟨x.toNat, hxlen⟩, ?_⟩
  rw [hrow]
  simpa using List.get?_eq_get hxlen

theorem getPixelAt_mem (g : GridData) (x y : ℤ) (p : PixelState)
    (hp : getPixelAt g x y = some p) : ∃ row ∈ g.pixels, p ∈ row := by
  unfold getPixelAt at hp
  split at hp
  · obtain ⟨row, hrow, hcell⟩ := Option.bind_eq_some.mp hp
    exact ⟨row, List.get?_mem hrow, List.get?_mem hcell⟩
  · exact absurd hp (by simp)

/-! ## Claim theorems: single-cell write (C5, C6) -/

/-- C5: a write (updatePixelAt) at a position that is out of bounds for
    the grid returns the input grid itself — unchanged, hence equal by
    value — rather than raising an error or modifying anything. -/
theorem updatePixelAt_out_of_bounds_noop (g : GridData) (x y : ℤ)
    (u : PixelPatch) (hwf : wellFormed g)
    (h : ¬(0 ≤ x ∧ x < (g.width : ℤ) ∧ 0 ≤ y ∧ y < (g.height : ℤ))) :
    updatePixelAt g x y u = g := by
  apply updatePixelAt_invalid
  intro hv
  obtain ⟨hx0, hx1, hy0, hy1⟩ := (isValid_iff _ _ _).mp hv
  have hsq := hwf.2.2
  exact h ⟨hx0, hx1, hy0, by omega⟩

theorem updatePixelAt_out_of_bounds_noop_witness :
    wellFormed (createEmptyGrid 2 2) ∧
    ¬((0:ℤ) ≤ 5 ∧ (5:ℤ) < ((createEmptyGrid 2 2).width : ℤ) ∧
      (0:ℤ) ≤ 0 ∧ (0:ℤ) < ((createEmptyGrid 2 2).height : ℤ)) ∧
    updatePixelAt (createEmptyGrid 2 2) 5 0 { rgba := some ⟨10, 20, 30, 1⟩ } =
      createEmptyGrid 2 2 :=
  ⟨by decide, by decide,
    updatePixelAt_out_of_bounds_noop _ _ _ _ (by decide) (by decide)⟩

/-- C6: a write (updatePixelAt) at an in-bounds position returns a new
    grid of the same dimensions in which the target cell carries the
    written color with modified set to true and its originalRgba (and
    position) unchanged, while every other cell is unchanged. -/
theorem updatePixelAt_in_bounds_spec (g : GridData) (x y : ℤ) (c : RGBAColor)
    (hwf : wellFormed g)
    (h : 0 ≤ x ∧ x < (g.width : ℤ) ∧ 0 ≤ y ∧ y < (g.height : ℤ)) :
    (updatePixelAt g x y { rgba := some c }).width = g.width ∧
    (updatePixelAt g x y { rgba := some c }).height = g.height ∧
    (∃ p, getPixelAt g x y = some p ∧
      getPixelAt (updatePixelAt g x y { rgba := some c }) x y =
        some { p with rgba := c, modified := true }) ∧
    ∀ x' y', ¬(x' = x ∧ y' = y) →
      getPixelAt (updatePixelAt g x y { rgba := some c }) x' y' =
        getPixelAt g x' y' := by
  have hsq := hwf.2.2
  have hv : isValidGridPosition ⟨x, y⟩ g.width = true :=
    (isValid_iff _ _ _).mpr ⟨h.1, h.2.1, h.2.2.1, by omega⟩
  refine ⟨updatePixelAt_width _ _ _ _, updatePixelAt_height _ _ _ _, ?_, ?_⟩
  · obtain ⟨p, hp⟩ := getPixelAt_isSome g hwf x y hv
    refine ⟨p, hp, ?_⟩
    rw [getPixelAt_updatePixelAt, if_pos ⟨rfl, rfl, hv⟩, hp]
    rfl
  · intro x' y' hne
    rw [getPixelAt_updatePixelAt, if_neg (fun hc => hne ⟨hc.1, hc.2.1⟩)]

theorem updatePixelAt_in_bounds_spec_witness :
    wellFormed (createEmptyGrid 3 3) ∧
    ((0:ℤ) ≤ 1 ∧ (1:ℤ) < ((createEmptyGrid 3 3).width : ℤ) ∧
      (0:ℤ) ≤ 2 ∧ (2:ℤ) < ((createEmptyGrid 3 3).height : ℤ)) ∧
    ((updatePixelAt (createEmptyGrid 3 3) 1 2
        { rgba := some ⟨9, 8, 7, 1⟩ }).width = (createEmptyGrid 3 3).width ∧
      (updatePixelAt (createEmptyGrid 3 3) 1 2
        { rgba := some ⟨9, 8, 7, 1⟩ }).height = (createEmptyGrid 3 3).height ∧
      (∃ p, getPixelAt (createEmptyGrid 3 3) 1 2 = some p ∧
        getPixelAt (updatePixelAt (createEmptyGrid 3 3) 1 2
          { rgba := some ⟨9, 8, 7, 1⟩ }) 1 2 =
          some { p with rgba := ⟨9, 8, 7, 1⟩, modified := true }) ∧
      ∀ x' y', ¬(x' = 1 ∧ y' = 2) →
        getPixelAt (updatePixelAt (createEmptyGrid 3 3) 1 2
          { rgba := some ⟨9, 8, 7, 1⟩ }) x' y' =
          getPixelAt (createEmptyGrid 3 3) x' y') :=
  ⟨by decide, by decide,
    updatePixelAt_in_bounds_spec _ _ _ _ (by decide) (by decide)⟩

/-- C7: resetGridModifications on a grid whose cells all carry an
    originalRgba returns a grid where every cell's color equals its
    originalRgba and modified is false, so getModifiedPixels of the
    result is empty. -/
theorem resetGridModifications_spec (g : GridData)
    (horig : ∀ row ∈ g.pixels, ∀ p ∈ row, p.originalRgba.isSome = true) :
    (∀ x y p, getPixelAt g x y = some p →
      ∃ o, p.originalRgba = some o ∧
        getPixelAt (resetGridModifications g) x y =
          some { p with rgba := o, modified := false }) ∧
    getModifiedPixels (resetGridModifications g) = [] := by
  constructor
  · intro x y p hp
    obtain ⟨row, hrow, hpm⟩ := getPixelAt_mem g x y p hp
    obtain ⟨o, ho⟩ := Option.isSome_iff_exists.mp (horig row hrow p hpm)
    refine ⟨o, ho, ?_⟩
    rw [getPixelAt_resetGridModifications, hp]
    simp [resetPixelState, ho]
  · apply getModifiedPixels_eq_nil
    intro row hrow p hpmem
    rw [resetGridModifications_pixels] at hrow
    obtain ⟨row0, hrow0, rfl⟩ := List.mem_map.mp hrow
    obtain ⟨p0, hp0, rfl⟩ := List.mem_map.mp hpmem
    obtain ⟨o, ho⟩ := Option.isSome_iff_exists.mp (horig row0 hrow0 p0 hp0)
    simp [resetPixelState, ho]

theorem resetGridModifications_spec_witness :
    (∀ row ∈ (updatePixelAt (createEmptyGrid 2 2) 0 0
        { rgba := some ⟨1, 2, 3, 1⟩ }).pixels, ∀ p ∈ row,
          p.originalRgba.isSome = true) ∧
    ((∀ x y p, getPixelAt (updatePixelAt (createEmptyGrid 2 2) 0 0
        { rgba := some ⟨1, 2, 3, 1⟩ }) x y = some p →
      ∃ o, p.originalRgba = some o ∧
        getPixelAt (resetGridModifications (updatePixelAt
          (createEmptyGrid 2 2) 0 0 { rgba := some ⟨1, 2, 3, 1⟩ })) x y =
          some { p with rgba := o, modified := false }) ∧
    getModifiedPixels (resetGridModifications (updatePixelAt
      (createEmptyGrid 2 2) 0 0 { rgba := some ⟨1, 2, 3, 1⟩ })) = []) :=
  ⟨by decide, resetGridModifications_spec _ (by decide)⟩

/-! ## Claim theorems: selection rectangle write (C1) -/

theorem getPixelAt_selection_5_5_2_8 (g : GridData) (u : PixelPatch)
    (x' y' : ℤ) :
    getPixelAt (updatePixelsInSelection g ⟨⟨5, 5⟩, ⟨2, 8⟩, true⟩ u) x' y' =
      if ((2:ℤ) ≤ x' ∧ x' ≤ 5 ∧ (5:ℤ) ≤ y' ∧ y' ≤ 8) ∧
          isValidGridPosition ⟨x', y'⟩ g.width = true then
        (getPixelAt g x' y').map (fun p => applyPatch p u)
      else getPixelAt g x' y' := by
  rw [getPixelAt_updatePixelsInSelection _ _ _ _ _ rfl]
  simp only [min_def, max_def]
  norm_num

set_option maxRecDepth 40000 in
/-- C1 counterexample: with selection start (5,5) and end (2,8) on a
    fresh 10x10 grid, one updatePixelsInSelection call marks 16 cells
    modified (x in [2,5] and y in [5,8] are four values each), not 12
    as the claim counts. -/
theorem updatePixelsInSelection_count_counterexample :
    (getModifiedPixels (updatePixelsInSelection (createEmptyGrid 10 10)
      ⟨⟨5, 5⟩, ⟨2, 8⟩, true⟩ { rgba := some ⟨255, 0, 0, 1⟩ })).length = 16 ∧
    (getModifiedPixels (updatePixelsInSelection (createEmptyGrid 10 10)
      ⟨⟨5, 5⟩, ⟨2, 8⟩, true⟩ { rgba := some ⟨255, 0, 0, 1⟩ })).length ≠ 12 := by
  constructor
  · decide
  · decide

/-- C1 (amended): on a grid large enough to contain the rectangle, one
    updatePixelsInSelection call with selection start (5,5), end (2,8)
    gives every cell with x in [2,5] and y in [5,8] (inclusive) — 16
    cells, not 12 — the given color with modified set, and leaves every
    other cell unchanged. -/
theorem updatePixelsInSelection_rect_spec (g : GridData) (c : RGBAColor)
    (hwf : wellFormed g) (hsize : 9 ≤ g.width) :
    (∀ x y : ℤ, 2 ≤ x → x ≤ 5 → 5 ≤ y → y ≤ 8 →
      ∃ p, getPixelAt g x y = some p ∧
        getPixelAt (updatePixelsInSelection g ⟨⟨5, 5⟩, ⟨2, 8⟩, true⟩
          { rgba := some c }) x y =
          some { p with rgba := c, modified := true }) ∧
    (∀ x y : ℤ, ¬(2 ≤ x ∧ x ≤ 5 ∧ 5 ≤ y ∧ y ≤ 8) →
      getPixelAt (updatePixelsInSelection g ⟨⟨5, 5⟩, ⟨2, 8⟩, true⟩
        { rgba := some c }) x y = getPixelAt g x y) ∧
    ((Finset.Icc (2:ℤ) 5) ×ˢ (Finset.Icc (5:ℤ) 8)).card = 16 := by
  refine ⟨?_, ?_, ?_⟩
  · intro x y h2 h5 h5' h8
    have hv : isValidGridPosition ⟨x, y⟩ g.width = true :=
      (isValid_iff _ _ _).mpr ⟨by omega, by omega, by omega, by omega⟩
    obtain ⟨p, hp⟩ := getPixelAt_isSome g hwf x y hv
    refine ⟨p, hp, ?_⟩
    rw [getPixelAt_selection_5_5_2_8,
      if_pos ⟨⟨h2, h5, h5', h8⟩, hv⟩, hp]
    rfl
  · intro x y hn
    rw [getPixelAt_selection_5_5_2_8, if_neg]
    rintro ⟨⟨ha, hb, hc', hd⟩, -⟩
    exact hn ⟨ha, hb, hc', hd⟩
  · rw [Finset.card_product]
    simp [Int.card_Icc]

theorem updatePixelsInSelection_rect_spec_witness :
    wellFormed (createEmptyGrid 9 9) ∧ 9 ≤ (createEmptyGrid 9 9).width ∧
    ((∀ x y : ℤ, 2 ≤ x → x ≤ 5 → 5 ≤ y → y ≤ 8 →
      ∃ p, getPixelAt (createEmptyGrid 9 9) x y = some p ∧
        getPixelAt (updatePixelsInSelection (createEmptyGrid 9 9)
          ⟨⟨5, 5⟩, ⟨2, 8⟩, true⟩ { rgba := some ⟨1, 2, 3, 1⟩ }) x y =
          some { p with rgba := ⟨1, 2, 3, 1⟩, modified := true }) ∧
    (∀ x y : ℤ, ¬(2 ≤ x ∧ x ≤ 5 ∧ 5 ≤ y ∧ y ≤ 8) →
      getPixelAt (updatePixelsInSelection (createEmptyGrid 9 9)
        ⟨⟨5, 5⟩, ⟨2, 8⟩, true⟩ { rgba := some ⟨1, 2, 3, 1⟩ }) x y =
        getPixelAt (createEmptyGrid 9 9) x y) ∧
    ((Finset.Icc (2:ℤ) 5) ×ˢ (Finset.Icc (5:ℤ) 8)).card = 16) :=
  ⟨by decide, by decide,
    updatePixelsInSelection_rect_spec (createEmptyGrid 9 9) ⟨1, 2, 3, 1⟩
      (by decide) (by decide)⟩

/-! ## Claim theorems: the modified-flag lifecycle (C2) -/

theorem updatePixelsInSelection_inactive (g : GridData) (sel : GridSelection)
    (u : PixelPatch) (h : ¬ sel.active = true) :
    updatePixelsInSelection g sel u = g := by
  unfold updatePixelsInSelection
  rw [if_pos h]

theorem reachable_freshGrid (g0 g : GridData) (h : Reachable g0 g) :
    freshGrid g0 := by
  induction h with
  | fresh hf => exact hf
  | write g x y c hr ih => exact ih
  | region g sel c hr ih => exact ih
  | reset g hr ih => exact ih

theorem reachable_inv (g0 g : GridData) (h : Reachable g0 g) :
    ∀ x y p, getPixelAt g x y = some p →
      ∃ p0, getPixelAt g0 x y = some p0 ∧ p.originalRgba = some p0.rgba ∧
        (p.modified = false → p.rgba = p0.rgba) := by
  induction h with
  | fresh hf =>
      intro x y p hp
      obtain ⟨row, hrow, hpm⟩ := getPixelAt_mem _ _ _ _ hp
      exact ⟨p, hp, (hf row hrow p hpm).2, fun _ => rfl⟩
  | write g x y c hr ih =>
      intro x' y' p hp
      rw [getPixelAt_updatePixelAt] at hp
      by_cases hc : x' = x ∧ y' = y ∧
          isValidGridPosition ⟨x, y⟩ g.width = true
      · rw [if_pos hc] at hp
        obtain ⟨q, hq, hqp⟩ := Option.map_eq_some'.mp hp
        obtain ⟨p0, hp0, horig, hmod⟩ := ih x' y' q hq
        subst hqp
        refine ⟨p0, hp0, horig, ?_⟩
        intro hm
        simp [applyPatch] at hm
      · rw [if_neg hc] at hp
        exact ih _ _ _ hp
  | region g sel c hr ih =>
      intro x' y' p hp
      by_cases hact : sel.active = true
      · rw [getPixelAt_updatePixelsInSelection _ _ _ _ _ hact] at hp
        by_cases hc : (min sel.start.x sel.endPos.x ≤ x' ∧
            x' ≤ max sel.start.x sel.endPos.x ∧
            min sel.start.y sel.endPos.y ≤ y' ∧
            y' ≤ max sel.start.y sel.endPos.y) ∧
            isValidGridPosition ⟨x', y'⟩ g.width = true
        · rw [if_pos hc] at hp
          obtain ⟨q, hq, hqp⟩ := Option.map_eq_some'.mp hp
          obtain ⟨p0, hp0, horig, hmod⟩ := ih x' y' q hq
          subst hqp
          refine ⟨p0, hp0, horig, ?_⟩
          intro hm
          simp [applyPatch] at hm
        · rw [if_neg hc] at hp
          exact ih _ _ _ hp
      · rw [updatePixelsInSelection_inactive _ _ _ hact] at hp
        exact ih _ _ _ hp
  | reset g hr ih =>
      intro x' y' p hp
      rw [getPixelAt_resetGridModifications] at hp
      obtain ⟨q, hq, hqp⟩ := Option.map_eq_some'.mp hp
      obtain ⟨p0, hp0, horig, hmod⟩ := ih _ _ _ hq
      subst hqp
      refine ⟨p0, hp0, ?_, ?_⟩
      · simp [resetPixelState, horig]
      · intro hm
        simp [resetPixelState, horig]

/-- C2 counterexample: writing a cell's own creation color still sets
    its modified flag: from the fresh 2x2 grid, a write of transparent
    white (the creation color) at (0,0) reaches a grid whose cell (0,0)
    has modified = true while its color equals the creation color —
    refuting the claimed "modified iff color differs from creation". -/
theorem modified_iff_counterexample :
    Reachable (createEmptyGrid 2 2)
      (updatePixelAt (createEmptyGrid 2 2) 0 0
        { rgba := some transparentWhite }) ∧
    getPixelAt (updatePixelAt (createEmptyGrid 2 2) 0 0
      { rgba := some transparentWhite }) 0 0 =
      some ⟨0, 0, transparentWhite, true, some transparentWhite⟩ ∧
    getPixelAt (createEmptyGrid 2 2) 0 0 =
      some ⟨0, 0, transparentWhite, false, some transparentWhite⟩ :=
  ⟨Reachable.write _ _ _ _ _ (Reachable.fresh _ (by decide)),
    by decide, by decide⟩

/-- C2 (amended): in every grid reachable from creation by writes,
    region writes and resets, a cell whose current color differs from
    its creation color has modified = true (writes set the flag even
    when they rewrite the same color, so the converse direction of the
    claimed iff fails); the flag is false on every cell at creation and
    immediately after a reset. -/
theorem modified_flag_spec (g0 g : GridData) (h : Reachable g0 g) :
    (∀ x y p p0, getPixelAt g x y = some p → getPixelAt g0 x y = some p0 →
      p.rgba ≠ p0.rgba → p.modified = true) ∧
    (∀ x y p, getPixelAt g0 x y = some p → p.modified = false) ∧
    (∀ x y p, getPixelAt (resetGridModifications g) x y = some p →
      p.modified = false) := by
  refine ⟨?_, ?_, ?_⟩
  · intro x y p p0 hp hp0 hne
    obtain ⟨p0', hp0', horig, hmod⟩ := reachable_inv g0 g h x y p hp
    rw [hp0] at hp0'
    obtain rfl : p0 = p0' := by
      exact Option.some_inj.mp hp0'
    cases hm : p.modified with
    | true => rfl
    | false => exact absurd (hmod hm) hne
  · intro x y p hp
    obtain ⟨row, hrow, hpm⟩ := getPixelAt_mem _ _ _ _ hp
    exact (reachable_freshGrid g0 g h row hrow p hpm).1
  · intro x y p hp
    rw [getPixelAt_resetGridModifications] at hp
    obtain ⟨q, hq, hqp⟩ := Option.map_eq_some'.mp hp
    obtain ⟨p0, hp0, horig, -⟩ := reachable_inv g0 g h x y q hq
    subst hqp
    simp [resetPixelState, horig]

theorem modified_flag_spec_witness :
    Reachable (createEmptyGrid 2 2)
      (updatePixelAt (createEmptyGrid 2 2) 1 1 { rgba := some ⟨4, 5, 6, 1⟩ }) ∧
    ((∀ x y p p0,
      getPixelAt (updatePixelAt (createEmptyGrid 2 2) 1 1
        { rgba := some ⟨4, 5, 6, 1⟩ }) x y = some p →
      getPixelAt (createEmptyGrid 2 2) x y = some p0 →
      p.rgba ≠ p0.rgba → p.modified = true) ∧
    (∀ x y p, getPixelAt (createEmptyGrid 2 2) x y = some p →
      p.modified = false) ∧
    (∀ x y p, getPixelAt (resetGridModifications
      (updatePixelAt (createEmptyGrid 2 2) 1 1
        { rgba := some ⟨4, 5, 6, 1⟩ })) x y = some p →
      p.modified = false)) :=
  ⟨Reachable.write _ _ _ _ _ (Reachable.fresh _ (by decide)),
    modified_flag_spec _ _
      (Reachable.write _ _ _ _ _ (Reachable.fresh _ (by decide)))⟩

/-! ## History manager lemmas (C3, C4) -/

theorem get?_tail (l : List α) (n : ℕ) : l.tail.get? n = l.get? (n + 1) := by
  cases l <;> rfl

theorem addToHistory_def (s : PixelGridState) (g : GridData) :
    addToHistory s g =
      if MAX_HISTORY_SIZE <
          ((s.history.take (s.historyIndex + 1).toNat).concat
            (cloneGridData g)).length then
        { s with
          history := ((s.history.take (s.historyIndex + 1).toNat).concat
            (cloneGridData g)).tail
          historyIndex := ((((s.history.take (s.historyIndex + 1).toNat).concat
            (cloneGridData g)).tail).length : ℤ) - 1 }
      else
        { s with
          history := (s.history.take (s.historyIndex + 1).toNat).concat
            (cloneGridData g)
          historyIndex := (((s.history.take (s.historyIndex + 1).toNat).concat
            (cloneGridData g)).length : ℤ) - 1 } := by
  unfold addToHistory
  dsimp only
  split <;> rfl

theorem histInv_addToHistory (s : PixelGridState) (g : GridData)
    (h : histInv s) : histInv (addToHistory s g) := by
  obtain ⟨hl1, hl2, hi0, hi1⟩ := h
  rw [addToHistory_def]
  have hm : (s.historyIndex + 1).toNat ≤ s.history.length := by omega
  have hlenp : ((s.history.take (s.historyIndex + 1).toNat).concat
      (cloneGridData g)).length = (s.historyIndex + 1).toNat + 1 := by
    simp [List.length_concat, List.length_take]
    omega
  split
  · refine ⟨?_, ?_, ?_, ?_⟩ <;>
      simp only [List.length_tail, hlenp] <;> omega
  · rename_i hsmall
    rw [hlenp] at hsmall
    refine ⟨?_, ?_, ?_, ?_⟩ <;>
      simp only [hlenp, MAX_HISTORY_SIZE] at * <;> omega

theorem histInv_applyEdit (s : PixelGridState) (g : GridData)
    (h : histInv s) : histInv (applyEdit s g) := by
  have := histInv_addToHistory s g h
  unfold applyEdit histInv at *
  exact this

theorem undo_of_pos (s : PixelGridState) (h : ¬ s.historyIndex ≤ 0) :
    undo s =
      { s with
        gridData := some (cloneGridData
          (s.history.getD (s.historyIndex - 1).toNat emptyGridData))
        historyIndex := s.historyIndex - 1 } := by
  unfold undo
  rw [if_neg h]

theorem redo_of_lt (s : PixelGridState)
    (h : ¬ (s.history.length : ℤ) - 1 ≤ s.historyIndex) :
    redo s =
      { s with
        gridData := some (cloneGridData
          (s.history.getD (s.historyIndex + 1).toNat emptyGridData))
        historyIndex := s.historyIndex + 1 } := by
  unfold redo
  rw [if_neg h]

theorem histInv_undo (s : PixelGridState) (h : histInv s) :
    histInv (undo s) := by
  obtain ⟨hl1, hl2, hi0, hi1⟩ := h
  by_cases hc : s.historyIndex ≤ 0
  · unfold undo
    rw [if_pos hc]
    exact ⟨hl1, hl2, hi0, hi1⟩
  · rw [undo_of_pos s hc]
    exact ⟨hl1, hl2, show (0:ℤ) ≤ s.historyIndex - 1 by omega,
      show s.historyIndex - 1 < (s.history.length : ℤ) by omega⟩

theorem histInv_redo (s : PixelGridState) (h : histInv s) :
    histInv (redo s) := by
  obtain ⟨hl1, hl2, hi0, hi1⟩ := h
  by_cases hc : (s.history.length : ℤ) - 1 ≤ s.historyIndex
  · unfold redo
    rw [if_pos hc]
    exact ⟨hl1, hl2, hi0, hi1⟩
  · rw [redo_of_lt s hc]
    exact ⟨hl1, hl2, show (0:ℤ) ≤ s.historyIndex + 1 by omega,
      show s.historyIndex + 1 < (s.history.length : ℤ) by omega⟩

theorem histInv_applyHistOp (s : PixelGridState) (op : HistOp)
    (h : histInv s) : histInv (applyHistOp s op) := by
  cases op with
  | record g => exact histInv_applyEdit s g h
  | undoOp => exact histInv_undo s h
  | redoOp => exact histInv_redo s h

theorem histInv_applyHistOps (s : PixelGridState) (ops : List HistOp)
    (h : histInv s) : histInv (applyHistOps s ops) := by
  induction ops generalizing s with
  | nil => exact h
  | cons op ops ih => exact ih _ (histInv_applyHistOp s op h)

theorem histInv_seed (g : GridData) :
    histInv (setGridData initialPixelGridState (some g)) := by
  simp [setGridData, initialPixelGridState, histInv, MAX_HISTORY_SIZE]

theorem undo_iterate (s : PixelGridState) (k : ℕ)
    (hk : (k : ℤ) ≤ s.historyIndex) :
    (undo^[k] s).history = s.history ∧
    (undo^[k] s).historyIndex = s.historyIndex - k ∧
    (1 ≤ k → (undo^[k] s).gridData =
      some (s.history.getD (s.historyIndex - k).toNat emptyGridData)) := by
  induction k with
  | zero => simp
  | succ k ih =>
      have hk' : (k : ℤ) ≤ s.historyIndex := by push_cast at hk ⊢; omega
      obtain ⟨h1, h2, h3⟩ := ih hk'
      have hcond : ¬ (undo^[k] s).historyIndex ≤ 0 := by
        rw [h2]; push_cast at hk; omega
      rw [Function.iterate_succ_apply', undo_of_pos _ hcond]
      refine ⟨h1, ?_, ?_⟩
      · show (undo^[k] s).historyIndex - 1 = s.historyIndex - ((k:ℕ)+1 : ℕ)
        rw [h2]
        push_cast
        ring
      · intro _
        show some (cloneGridData ((undo^[k] s).history.getD
          ((undo^[k] s).historyIndex - 1).toNat emptyGridData)) = _
        rw [h1, h2, cloneGridData_eq]
        have heq : s.historyIndex - (k:ℤ) - 1 =
            s.historyIndex - ((k:ℕ) + 1 : ℕ) := by push_cast; ring
        rw [heq]

theorem getD_concat_length (l : List α) (a d : α) :
    (l.concat a).getD l.length d = a := by
  simp [List.concat_eq_append, List.getD_eq_get?, List.get?_concat_length]

theorem applyEdit_gridData_eq (s : PixelGridState) (g : GridData)
    (h : histInv s) :
    (applyEdit s g).gridData =
      some ((applyEdit s g).history.getD
        (applyEdit s g).historyIndex.toNat emptyGridData) := by
  obtain ⟨hl1, hl2, hi0, hi1⟩ := h
  have hm : (s.historyIndex + 1).toNat ≤ s.history.length := by omega
  have hlenp : ((s.history.take (s.historyIndex + 1).toNat).concat
      (cloneGridData g)).length = (s.historyIndex + 1).toNat + 1 := by
    simp [List.length_concat, List.length_take]
    omega
  have htake : (s.history.take (s.historyIndex + 1).toNat).length =
      (s.historyIndex + 1).toNat := by
    simp [List.length_take]
    omega
  unfold applyEdit
  rw [addToHistory_def]
  have hget : ∀ d, ((s.history.take (s.historyIndex + 1).toNat).concat
      (cloneGridData g)).getD (s.historyIndex + 1).toNat d = cloneGridData g := by
    intro d
    have hgc := getD_concat_length
      (s.history.take (s.historyIndex + 1).toNat) (cloneGridData g) d
    rwa [htake] at hgc
  split
  · -- eviction: index points at the last element of the tail
    show some g = some ((((s.history.take (s.historyIndex + 1).toNat).concat
      (cloneGridData g)).tail).getD _ emptyGridData)
    rw [List.getD_eq_get?, get?_tail]
    have hpos : 1 ≤ (s.historyIndex + 1).toNat := by omega
    have hidx : ((((((s.history.take (s.historyIndex + 1).toNat).concat
        (cloneGridData g)).tail).length : ℤ) - 1).toNat + 1) =
        (s.historyIndex + 1).toNat := by
      rw [List.length_tail, hlenp]
      omega
    rw [hidx, ← List.getD_eq_get? _ _ emptyGridData, hget, cloneGridData_eq]
  · show some g = some (((s.history.take (s.historyIndex + 1).toNat).concat
      (cloneGridData g)).getD _ emptyGridData)
    have hidx : (((((s.history.take (s.historyIndex + 1).toNat).concat
        (cloneGridData g)).length : ℤ) - 1).toNat) =
        (s.historyIndex + 1).toNat := by
      rw [hlenp]
      omega
    rw [hidx, hget, cloneGridData_eq]

theorem tail_concat (l : List α) (a : α) (h : l ≠ []) :
    (l.concat a).tail = l.tail.concat a := by
  cases l with
  | nil => exact absurd rfl h
  | cons x xs => rfl

/-- C3: starting from a seeded history, after any sequence of record,
    undo and redo operations the history length stays within
    MAX_HISTORY_SIZE (and the cursor in range); a record from a full
    history with the cursor at the last entry evicts the oldest entry
    (index 0) and leaves the cursor shifted down to the last index; and
    from the latest state, k undos (for any k up to the cursor, hence
    bound-1 from a full history) each step the cursor down by exactly
    one and land on the retained snapshot at cursor-k — reaching the
    oldest retained snapshot as a normal state change, not an error. -/
theorem history_bound_spec (g0 : GridData) (ops : List HistOp)
    (s : PixelGridState)
    (hs : s = applyHistOps (setGridData initialPixelGridState (some g0)) ops) :
    (1 ≤ s.history.length ∧ s.history.length ≤ MAX_HISTORY_SIZE ∧
      0 ≤ s.historyIndex ∧ s.historyIndex < (s.history.length : ℤ)) ∧
    (∀ g : GridData, s.history.length = MAX_HISTORY_SIZE →
      s.historyIndex = (MAX_HISTORY_SIZE : ℤ) - 1 →
      (applyEdit s g).history = s.history.tail.concat (cloneGridData g) ∧
      (applyEdit s g).historyIndex = (MAX_HISTORY_SIZE : ℤ) - 1) ∧
    (s.historyIndex = (s.history.length : ℤ) - 1 →
      ∀ k : ℕ, (k : ℤ) ≤ s.historyIndex →
        (undo^[k] s).history = s.history ∧
        (undo^[k] s).historyIndex = s.historyIndex - k ∧
        (1 ≤ k → (undo^[k] s).gridData =
          some (s.history.getD (s.historyIndex - k).toNat emptyGridData))) := by
  have hinv : histInv s := by
    rw [hs]
    exact histInv_applyHistOps _ ops (histInv_seed g0)
  obtain ⟨hl1, hl2, hi0, hi1⟩ := hinv
  refine ⟨⟨hl1, hl2, hi0, hi1⟩, ?_, ?_⟩
  · intro g hlen hidx
    have htn : (s.historyIndex + 1).toNat = s.history.length := by
      simp [MAX_HISTORY_SIZE] at hlen hidx
      omega
    have hne : s.history ≠ [] := by
      intro h0
      rw [h0] at hlen
      simp [MAX_HISTORY_SIZE] at hlen
    have hbig : MAX_HISTORY_SIZE <
        ((s.history.take (s.historyIndex + 1).toNat).concat
          (cloneGridData g)).length := by
      rw [htn, List.take_length, List.length_concat]
      omega
    constructor
    · show (addToHistory s g).history = _
      rw [addToHistory_def, if_pos hbig]
      dsimp only
      rw [htn, List.take_length, tail_concat _ _ hne]
    · show (addToHistory s g).historyIndex = _
      rw [addToHistory_def, if_pos hbig]
      dsimp only
      rw [htn, List.take_length, List.length_tail, List.length_concat]
      simp [MAX_HISTORY_SIZE] at hlen ⊢
      omega
  · intro _ k hk
    exact undo_iterate s k hk

theorem history_bound_spec_witness :
    (1 ≤ (applyHistOps (setGridData initialPixelGridState
        (some (createEmptyGrid 1 1)))
        [HistOp.record (createEmptyGrid 2 2)]).history.length ∧
      (applyHistOps (setGridData initialPixelGridState
        (some (createEmptyGrid 1 1)))
        [HistOp.record (createEmptyGrid 2 2)]).history.length ≤
        MAX_HISTORY_SIZE ∧
      0 ≤ (applyHistOps (setGridData initialPixelGridState
        (some (createEmptyGrid 1 1)))
        [HistOp.record (createEmptyGrid 2 2)]).historyIndex ∧
      (applyHistOps (setGridData initialPixelGridState
        (some (createEmptyGrid 1 1)))
        [HistOp.record (createEmptyGrid 2 2)]).historyIndex <
        ((applyHistOps (setGridData initialPixelGridState
          (some (createEmptyGrid 1 1)))
          [HistOp.record (createEmptyGrid 2 2)]).history.length : ℤ)) ∧
    (∀ g : GridData, (applyHistOps (setGridData initialPixelGridState
        (some (createEmptyGrid 1 1)))
        [HistOp.record (createEmptyGrid 2 2)]).history.length =
        MAX_HISTORY_SIZE →
      (applyHistOps (setGridData initialPixelGridState
        (some (createEmptyGrid 1 1)))
        [HistOp.record (createEmptyGrid 2 2)]).historyIndex =
        (MAX_HISTORY_SIZE : ℤ) - 1 →
      (applyEdit (applyHistOps (setGridData initialPixelGridState
        (some (createEmptyGrid 1 1)))
        [HistOp.record (createEmptyGrid 2 2)]) g).history =
        (applyHistOps (setGridData initialPixelGridState
          (some (createEmptyGrid 1 1)))
          [HistOp.record (createEmptyGrid 2 2)]).history.tail.concat
          (cloneGridData g) ∧
      (applyEdit (applyHistOps (setGridData initialPixelGridState
        (some (createEmptyGrid 1 1)))
        [HistOp.record (createEmptyGrid 2 2)]) g).historyIndex =
        (MAX_HISTORY_SIZE : ℤ) - 1) ∧
    ((applyHistOps (setGridData initialPixelGridState
        (some (createEmptyGrid 1 1)))
        [HistOp.record (createEmptyGrid 2 2)]).historyIndex =
        ((applyHistOps (setGridData initialPixelGridState
          (some (createEmptyGrid 1 1)))
          [HistOp.record (createEmptyGrid 2 2)]).history.length : ℤ) - 1 →
      ∀ k : ℕ, (k : ℤ) ≤ (applyHistOps (setGridData initialPixelGridState
          (some (createEmptyGrid 1 1)))
          [HistOp.record (createEmptyGrid 2 2)]).historyIndex →
        (undo^[k] (applyHistOps (setGridData initialPixelGridState
          (some (createEmptyGrid 1 1)))
          [HistOp.record (createEmptyGrid 2 2)])).history =
          (applyHistOps (setGridData initialPixelGridState
            (some (createEmptyGrid 1 1)))
            [HistOp.record (createEmptyGrid 2 2)]).history ∧
        (undo^[k] (applyHistOps (setGridData initialPixelGridState
          (some (createEmptyGrid 1 1)))
          [HistOp.record (createEmptyGrid 2 2)])).historyIndex =
          (applyHistOps (setGridData initialPixelGridState
            (some (createEmptyGrid 1 1)))
            [HistOp.record (createEmptyGrid 2 2)]).historyIndex - k ∧
        (1 ≤ k → (undo^[k] (applyHistOps (setGridData initialPixelGridState
          (some (createEmptyGrid 1 1)))
          [HistOp.record (createEmptyGrid 2 2)])).gridData =
          some ((applyHistOps (setGridData initialPixelGridState
            (some (createEmptyGrid 1 1)))
            [HistOp.record (createEmptyGrid 2 2)]).history.getD
            ((applyHistOps (setGridData initialPixelGridState
              (some (createEmptyGrid 1 1)))
              [HistOp.record (createEmptyGrid 2 2)]).historyIndex - k).toNat
            emptyGridData))) :=
  history_bound_spec (createEmptyGrid 1 1)
    [HistOp.record (createEmptyGrid 2 2)] _ rfl

theorem seed_gridData_eq (g : GridData) :
    (setGridData initialPixelGridState (some g)).gridData =
      some ((setGridData initialPixelGridState (some g)).history.getD
        (setGridData initialPixelGridState (some g)).historyIndex.toNat
        emptyGridData) := by
  simp [setGridData, initialPixelGridState, cloneGridData_eq]

theorem records_inv (gs : List GridData) (s : PixelGridState)
    (h1 : histInv s)
    (h2 : s.gridData = some (s.history.getD s.historyIndex.toNat
      emptyGridData)) :
    histInv (applyHistOps s (gs.map HistOp.record)) ∧
    (applyHistOps s (gs.map HistOp.record)).gridData =
      some ((applyHistOps s (gs.map HistOp.record)).history.getD
        (applyHistOps s (gs.map HistOp.record)).historyIndex.toNat
        emptyGridData) := by
  induction gs generalizing s with
  | nil => exact ⟨h1, h2⟩
  | cons g gs ih =>
      simp only [List.map_cons, applyHistOps, List.foldl_cons]
      exact ih (applyEdit s g) (histInv_applyEdit s g h1)
        (applyEdit_gridData_eq s g h1)

theorem undo_redo_of_inv (s : PixelGridState) (h1 : histInv s)
    (h2 : s.gridData = some (s.history.getD s.historyIndex.toNat
      emptyGridData))
    (hpos : 0 < s.historyIndex) : redo (undo s) = s := by
  obtain ⟨hl1, hl2, hi0, hi1⟩ := h1
  obtain ⟨gd, h, i⟩ := s
  simp only at hl1 hl2 hi0 hi1 h2 hpos
  rw [undo_of_pos _ (by simp only; omega)]
  rw [redo_of_lt _ (by simp only; omega)]
  have hidx : i - 1 + 1 = i := by omega
  simp only [hidx, cloneGridData_eq, h2]

/-- C4: in any history state produced by a seed followed by any
    sequence of record calls, if the cursor is positive then undo
    followed by redo restores the exact prior state: the same current
    grid value and the same cursor position. -/
theorem undo_redo_symmetry (g0 : GridData) (gs : List GridData)
    (s : PixelGridState)
    (hs : s = applyHistOps (setGridData initialPixelGridState (some g0))
      (gs.map HistOp.record))
    (hpos : 0 < s.historyIndex) : redo (undo s) = s := by
  have hri := records_inv gs (setGridData initialPixelGridState (some g0))
    (histInv_seed g0) (seed_gridData_eq g0)
  rw [hs]
  exact undo_redo_of_inv _ (hri.1) (hri.2) (hs ▸ hpos)

theorem undo_redo_symmetry_witness :
    0 < (applyHistOps (setGridData initialPixelGridState
      (some (createEmptyGrid 1 1)))
      ([createEmptyGrid 2 2, createEmptyGrid 3 3].map HistOp.record)).historyIndex ∧
    redo (undo (applyHistOps (setGridData initialPixelGridState
      (some (createEmptyGrid 1 1)))
      ([createEmptyGrid 2 2, createEmptyGrid 3 3].map HistOp.record))) =
      applyHistOps (setGridData initialPixelGridState
        (some (createEmptyGrid 1 1)))
        ([createEmptyGrid 2 2, createEmptyGrid 3 3].map HistOp.record) :=
  ⟨by decide,
    undo_redo_symmetry (createEmptyGrid 1 1)
      [createEmptyGrid 2 2, createEmptyGrid 3 3] _ rfl (by decide)⟩

/-! ## Claim theorems: processor failure atomicity (C8) -/

/-- C8: when an ingestion attempt fails — a validation, decode, or
    resample/extraction failure reported in the ProcessingResult, or a
    thrown error caught by processImage — the processor state ends with
    the error recorded and processing cleared, while the previously
    held imageData and gridData are left unchanged (the pixel-grid
    state and its history live in a separate hook that processImage
    never touches, so the prior grid and history are untouched a
    fortiori). -/
theorem processImage_failure_spec (s : ProcessorState) (fileName : String)
    (outcome : ProcessOutcome)
    (hfail : ∀ r, outcome = Except.ok r →
      ¬(r.success = true ∧ r.imageData.isSome = true ∧
        r.gridData.isSome = true)) :
    (processImage s fileName outcome).imageData = s.imageData ∧
    (processImage s fileName outcome).gridData = s.gridData ∧
    (processImage s fileName outcome).processing = false ∧
    (processImage s fileName outcome).error.isSome = true := by
  cases outcome with
  | error msg => exact ⟨rfl, rfl, rfl, rfl⟩
  | ok r =>
      obtain ⟨succ, imgD, gdD, err⟩ := r
      cases succ <;> cases imgD <;> cases gdD
      · exact ⟨rfl, rfl, rfl, rfl⟩
      · exact ⟨rfl, rfl, rfl, rfl⟩
      · exact ⟨rfl, rfl, rfl, rfl⟩
      · exact ⟨rfl, rfl, rfl, rfl⟩
      · exact ⟨rfl, rfl, rfl, rfl⟩
      · exact ⟨rfl, rfl, rfl, rfl⟩
      · exact ⟨rfl, rfl, rfl, rfl⟩
      · exact absurd ⟨rfl, rfl, rfl⟩ (hfail _ rfl)

theorem processImage_failure_spec_witness :
    (∀ r, (Except.error "Failed to load image" :
        ProcessOutcome) = Except.ok r →
      ¬(r.success = true ∧ r.imageData.isSome = true ∧
        r.gridData.isSome = true)) ∧
    ((processImage ⟨false, some ⟨640, 480, "prior.png"⟩,
        some (createEmptyGrid 1 1), none⟩ "new.png"
        (Except.error "Failed to load image")).imageData =
        some ⟨640, 480, "prior.png"⟩ ∧
      (processImage ⟨false, some ⟨640, 480, "prior.png"⟩,
        some (createEmptyGrid 1 1), none⟩ "new.png"
        (Except.error "Failed to load image")).gridData =
        some (createEmptyGrid 1 1) ∧
      (processImage ⟨false, some ⟨640, 480, "prior.png"⟩,
        some (createEmptyGrid 1 1), none⟩ "new.png"
        (Except.error "Failed to load image")).processing = false ∧
      (processImage ⟨false, some ⟨640, 480, "prior.png"⟩,
        some (createEmptyGrid 1 1), none⟩ "new.png"
        (Except.error "Failed to load image")).error.isSome = true) :=
  ⟨fun r hr => Except.noConfusion hr,
    processImage_failure_spec
      ⟨false, some ⟨640, 480, "prior.png"⟩, some (createEmptyGrid 1 1), none⟩
      "new.png" (Except.error "Failed to load image")
      (fun r hr => Except.noConfusion hr)⟩

/-! ## Claim theorems: coordinate round trip (C9) -/

theorem floor_div_cell (n cs : ℕ) (hc : 0 < cs) (p : ℚ)
    (h1 : (n : ℚ) * cs ≤ p) (h2 : p < ((n : ℚ) + 1) * cs) :
    ⌊p / (cs : ℚ)⌋ = n := by
  have hcq : (0 : ℚ) < cs := by exact_mod_cast hc
  rw [Int.floor_eq_iff]
  constructor
  · rw [le_div_iff hcq]
    push_cast
    linarith
  · rw [div_lt_iff hcq]
    push_cast
    linarith

theorem canvas_scale_eq (gs cs : ℕ) (hg : 0 < gs) (p : ℚ) :
    p / ((gs : ℚ) * cs) * gs = p / cs := by
  have hgq : (gs : ℚ) ≠ 0 := by positivity
  by_cases hcs : (cs : ℚ) = 0
  · simp [hcs]
  · field_simp
    ring

/-- C9: with canvas dimensions gridSize * cellSize (a positive multiple
    of the grid size), canvasToGridCoordinates is the exact left
    inverse of gridToCanvasCoordinates on every grid point, and any
    point inside a cell's pixel footprint maps back to that cell. -/
theorem coordinate_roundtrip (gridX gridY gridSize cellSize : ℕ)
    (hc : 0 < cellSize) (hg : 0 < gridSize) :
    canvasToGridCoordinates
      (gridToCanvasCoordinates gridX gridY ((gridSize : ℚ) * cellSize)
        ((gridSize : ℚ) * cellSize) gridSize).1
      (gridToCanvasCoordinates gridX gridY ((gridSize : ℚ) * cellSize)
        ((gridSize : ℚ) * cellSize) gridSize).2
      ((gridSize : ℚ) * cellSize) ((gridSize : ℚ) * cellSize) gridSize =
      ⟨(gridX : ℤ), (gridY : ℤ)⟩ ∧
    (∀ px py : ℚ,
      (gridX : ℚ) * cellSize ≤ px → px < ((gridX : ℚ) + 1) * cellSize →
      (gridY : ℚ) * cellSize ≤ py → py < ((gridY : ℚ) + 1) * cellSize →
      canvasToGridCoordinates px py ((gridSize : ℚ) * cellSize)
        ((gridSize : ℚ) * cellSize) gridSize = ⟨(gridX : ℤ), (gridY : ℤ)⟩) := by
  have hcq : (0 : ℚ) < cellSize := by exact_mod_cast hc
  have key : ∀ (n : ℕ) (p : ℚ), (n : ℚ) * cellSize ≤ p →
      p < ((n : ℚ) + 1) * cellSize →
      ⌊p / ((gridSize : ℚ) * cellSize) * gridSize⌋ = n := by
    intro n p hp1 hp2
    rw [canvas_scale_eq gridSize cellSize hg]
    exact floor_div_cell n cellSize hc p hp1 hp2
  constructor
  · unfold gridToCanvasCoordinates canvasToGridCoordinates
    dsimp only
    have hx : (gridX : ℚ) / gridSize * ((gridSize : ℚ) * cellSize) =
        (gridX : ℚ) * cellSize := by
      have hgq : (gridSize : ℚ) ≠ 0 := by positivity
      field_simp
      ring
    have hy : (gridY : ℚ) / gridSize * ((gridSize : ℚ) * cellSize) =
        (gridY : ℚ) * cellSize := by
      have hgq : (gridSize : ℚ) ≠ 0 := by positivity
      field_simp
      ring
    rw [hx, hy, key gridX _ le_rfl (by linarith),
      key gridY _ le_rfl (by linarith)]
  · intro px py h1 h2 h3 h4
    unfold canvasToGridCoordinates
    rw [key gridX px h1 h2, key gridY py h3 h4]

theorem coordinate_roundtrip_witness :
    0 < 4 ∧ 0 < 20 ∧
    canvasToGridCoordinates
      (gridToCanvasCoordinates 3 7 ((20 : ℚ) * 4) ((20 : ℚ) * 4) 20).1
      (gridToCanvasCoordinates 3 7 ((20 : ℚ) * 4) ((20 : ℚ) * 4) 20).2
      ((20 : ℚ) * 4) ((20 : ℚ) * 4) 20 = ⟨(3 : ℤ), (7 : ℤ)⟩ :=
  ⟨by decide, by decide,
    (coordinate_roundtrip 3 7 20 4 (by decide) (by decide)).1⟩

/-! ## Claim theorems: color round trips (C10) -/

theorem rgbaToHsl_gray (c a : ℚ) :
    rgbaToHsl ⟨c, c, c, a⟩ = ⟨0, 0, (jsRound (c / 255 * 100) : ℚ)⟩ := by
  unfold rgbaToHsl
  simp only [max_self, min_self, sub_self]
  norm_num [jsRound]

theorem hslToRgba_gray (L a : ℚ) :
    hslToRgba ⟨0, 0, L⟩ a =
      ⟨(jsRound (L / 100 * 255) : ℚ), (jsRound (L / 100 * 255) : ℚ),
       (jsRound (L / 100 * 255) : ℚ), a⟩ := by
  unfold hslToRgba
  norm_num

theorem rgbaToHsv_gray (c a : ℚ) :
    rgbaToHsv ⟨c, c, c, a⟩ = ⟨0, 0, (jsRound (c / 255 * 100) : ℚ)⟩ := by
  unfold rgbaToHsv
  simp only [max_self, min_self, sub_self]
  norm_num [jsRound]

theorem hsvToRgba_gray (V a : ℚ) :
    hsvToRgba ⟨0, 0, V⟩ a =
      ⟨(jsRound (V / 100 * 255) : ℚ), (jsRound (V / 100 * 255) : ℚ),
       (jsRound (V / 100 * 255) : ℚ), a⟩ := by
  unfold hsvToRgba
  norm_num [jsFmod, jsTrunc]

theorem jsRound_div (a b : ℕ) (hb : 0 < b) :
    jsRound ((a : ℚ) / b) = ((2 * a + b) / (2 * b) : ℕ) := by
  unfold jsRound
  have hbq : (b : ℚ) ≠ 0 := by positivity
  have harg : (a : ℚ) / b + 1 / 2 =
      ((2 * a + b : ℕ) : ℚ) / ((2 * b : ℕ) : ℚ) := by
    push_cast
    field_simp
    ring
  rw [harg, Rat.floor_natCast_div_natCast]
  exact (Int.ofNat_div _ _).symm

theorem jsRound_scale_to_100 (n : ℕ) :
    jsRound ((n : ℚ) / 255 * 100) = (((200 * n + 255) / 510 : ℕ) : ℤ) := by
  have harg : (n : ℚ) / 255 * 100 = ((100 * n : ℕ) : ℚ) / ((255 : ℕ) : ℚ) := by
    push_cast
    ring
  rw [harg, jsRound_div _ _ (by norm_num)]
  congr 1
  ring

theorem jsRound_scale_to_255 (k : ℕ) :
    jsRound ((k : ℚ) / 100 * 255) = (((510 * k + 100) / 200 : ℕ) : ℤ) := by
  have harg : (k : ℚ) / 100 * 255 = ((255 * k : ℕ) : ℚ) / ((100 : ℕ) : ℚ) := by
    push_cast
    ring
  rw [harg, jsRound_div _ _ (by norm_num)]
  congr 1
  ring

set_option maxRecDepth 4000 in
theorem gray_roundtrip_nat : ∀ n : Fin 256,
    (510 * ((200 * n.val + 255) / 510) + 100) / 200 ≤ n.val + 1 ∧
    n.val ≤ (510 * ((200 * n.val + 255) / 510) + 100) / 200 + 1 := by decide

theorem hsl_gray_eq (n : ℕ) (a : ℚ) :
    hslToRgba (rgbaToHsl ⟨n, n, n, a⟩) a =
      ⟨(((510 * ((200 * n + 255) / 510) + 100) / 200 : ℕ) : ℚ),
       (((510 * ((200 * n + 255) / 510) + 100) / 200 : ℕ) : ℚ),
       (((510 * ((200 * n + 255) / 510) + 100) / 200 : ℕ) : ℚ), a⟩ := by
  rw [rgbaToHsl_gray, hslToRgba_gray]
  have hchain : ((jsRound (((jsRound ((n : ℚ) / 255 * 100) : ℤ) : ℚ) / 100 *
      255) : ℤ) : ℚ) =
      (((510 * ((200 * n + 255) / 510) + 100) / 200 : ℕ) : ℚ) := by
    rw [jsRound_scale_to_100,
      show ((((200 * n + 255) / 510 : ℕ) : ℤ) : ℚ) =
        (((200 * n + 255) / 510 : ℕ) : ℚ) from by push_cast; rfl,
      jsRound_scale_to_255]
    push_cast
    rfl
  rw [hchain]

theorem hsv_gray_eq (n : ℕ) (a : ℚ) :
    hsvToRgba (rgbaToHsv ⟨n, n, n, a⟩) a =
      ⟨(((510 * ((200 * n + 255) / 510) + 100) / 200 : ℕ) : ℚ),
       (((510 * ((200 * n + 255) / 510) + 100) / 200 : ℕ) : ℚ),
       (((510 * ((200 * n + 255) / 510) + 100) / 200 : ℕ) : ℚ), a⟩ := by
  rw [rgbaToHsv_gray, hsvToRgba_gray]
  have hchain : ((jsRound (((jsRound ((n : ℚ) / 255 * 100) : ℤ) : ℚ) / 100 *
      255) : ℤ) : ℚ) =
      (((510 * ((200 * n + 255) / 510) + 100) / 200 : ℕ) : ℚ) := by
    rw [jsRound_scale_to_100,
      show ((((200 * n + 255) / 510 : ℕ) : ℤ) : ℚ) =
        (((200 * n + 255) / 510 : ℕ) : ℚ) from by push_cast; rfl,
      jsRound_scale_to_255]
    push_cast
    rfl
  rw [hchain]

theorem abs_gray_diff_le_one (n : ℕ) (hn : n ≤ 255) :
    |(((510 * ((200 * n + 255) / 510) + 100) / 200 : ℕ) : ℚ) - (n : ℚ)| ≤ 1 := by
  obtain ⟨h1, h2⟩ := gray_roundtrip_nat ⟨n, by omega⟩
  rw [abs_le]
  constructor
  · have hc : (n : ℚ) ≤
        (((510 * ((200 * n + 255) / 510) + 100) / 200 : ℕ) : ℚ) + 1 := by
      exact_mod_cast h2
    linarith
  · have hc : (((510 * ((200 * n + 255) / 510) + 100) / 200 : ℕ) : ℚ) ≤
        (n : ℚ) + 1 := by
      exact_mod_cast h1
    linarith

/-- C10 counterexample: at the valid RGBA input (0, 0, 2) with alpha 1,
    the HSL round trip returns (0, 0, 0) — the blue channel moves by 2,
    beyond the claimed ±1 — and at (0, 2, 211) the HSV round trip
    returns (0, 4, 212), whose green channel also moves by 2. -/
theorem color_roundtrip_counterexample :
    rgbaToHsl ⟨0, 0, 2, 1⟩ = ⟨240, 100, 0⟩ ∧
    hslToRgba (rgbaToHsl ⟨0, 0, 2, 1⟩) 1 = ⟨0, 0, 0, 1⟩ ∧
    ¬ |(hslToRgba (rgbaToHsl ⟨0, 0, 2, 1⟩) 1).b - 2| ≤ 1 ∧
    rgbaToHsv ⟨0, 2, 211, 1⟩ = ⟨239, 100, 83⟩ ∧
    hsvToRgba (rgbaToHsv ⟨0, 2, 211, 1⟩) 1 = ⟨0, 4, 212, 1⟩ ∧
    ¬ |(hsvToRgba (rgbaToHsv ⟨0, 2, 211, 1⟩) 1).g - 2| ≤ 1 := by
  have h1 : rgbaToHsl ⟨0, 0, 2, 1⟩ = ⟨240, 100, 0⟩ := by
    unfold rgbaToHsl
    norm_num [max_def, min_def, jsRound]
  have h2 : hslToRgba ⟨240, 100, 0⟩ 1 = ⟨0, 0, 0, 1⟩ := by
    unfold hslToRgba hue2rgb
    norm_num [jsRound]
  have h3 : rgbaToHsv ⟨0, 2, 211, 1⟩ = ⟨239, 100, 83⟩ := by
    unfold rgbaToHsv
    norm_num [max_def, min_def, jsRound]
  have h4 : hsvToRgba ⟨239, 100, 83⟩ 1 = ⟨0, 4, 212, 1⟩ := by
    unfold hsvToRgba
    norm_num [jsFmod, jsTrunc, jsRound, abs_of_nonneg]
  refine ⟨h1, by rw [h1]; exact h2, ?_, h3, by rw [h3]; exact h4, ?_⟩
  · rw [h1, h2]
    norm_num
  · rw [h3, h4]
    norm_num

/-- C10 (amended): both round trips preserve alpha exactly (the
    inverse conversions pass the input's alpha through unchanged), and
    for achromatic inputs (r = g = b an integer in [0,255]) every RGB
    channel of both round trips is within ±1 of the input; for general
    chromatic inputs the claimed ±1 bound is false (deviations of 2 and
    more occur, see the counterexample). -/
theorem color_roundtrip_achromatic (n : ℕ) (a : ℚ) (hn : n ≤ 255) :
    (∀ c : RGBAColor, (hslToRgba (rgbaToHsl c) c.a).a = c.a ∧
      (hsvToRgba (rgbaToHsv c) c.a).a = c.a) ∧
    |(hslToRgba (rgbaToHsl ⟨n, n, n, a⟩) a).r - n| ≤ 1 ∧
    |(hslToRgba (rgbaToHsl ⟨n, n, n, a⟩) a).g - n| ≤ 1 ∧
    |(hslToRgba (rgbaToHsl ⟨n, n, n, a⟩) a).b - n| ≤ 1 ∧
    (hslToRgba (rgbaToHsl ⟨n, n, n, a⟩) a).a = a ∧
    |(hsvToRgba (rgbaToHsv ⟨n, n, n, a⟩) a).r - n| ≤ 1 ∧
    |(hsvToRgba (rgbaToHsv ⟨n, n, n, a⟩) a).g - n| ≤ 1 ∧
    |(hsvToRgba (rgbaToHsv ⟨n, n, n, a⟩) a).b - n| ≤ 1 ∧
    (hsvToRgba (rgbaToHsv ⟨n, n, n, a⟩) a).a = a := by
  refine ⟨fun c => ⟨rfl, rfl⟩, ?_, ?_, ?_, ?_, ?_, ?_, ?_, ?_⟩ <;>
    simp only [hsl_gray_eq, hsv_gray_eq] <;>
    first
    | exact abs_gray_diff_le_one n hn
    | rfl

theorem color_roundtrip_achromatic_witness :
    (7 : ℕ) ≤ 255 ∧
    |(hslToRgba (rgbaToHsl ⟨(7 : ℕ), (7 : ℕ), (7 : ℕ), 1⟩) 1).r - (7 : ℕ)| ≤ 1 ∧
    |(hsvToRgba (rgbaToHsv ⟨(7 : ℕ), (7 : ℕ), (7 : ℕ), 1⟩) 1).r - (7 : ℕ)| ≤ 1 :=
  ⟨by decide,
    (color_roundtrip_achromatic 7 1 (by decide)).2.1,
    (color_roundtrip_achromatic 7 1 (by decide)).2.2.2.2.2.1⟩

end ImageGrid
